import Mathlib

/-!
Shallow embedding of `main.py`: a streaming Claude chat loop with a single
`python_repl` tool backed by a persistent `PythonREPL` sandbox.

Code fragments sent to the sandbox are modelled as already-parsed programs in
a small imperative language (assignment, printing to stdout/stderr, raising);
Python's `exec` over a persistent `globals_dict` becomes explicit threading of
an association-list environment.  Machine strings are Lean `String`s; Python
string slicing, `rstrip` and truthiness are modelled explicitly.
-/

/-! ## The Execution Sandbox (`PythonREPL`, main.py lines 29-69) -/

/-- Expressions of the embedded code fragments run through `exec`. -/
inductive Expr where
  | lit (n : Int)
  | var (x : String)
  | add (a b : Expr)
  | mul (a b : Expr)
deriving Repr, DecidableEq

/-- Statements of the embedded code fragments: top-level assignment, `print`
to stdout, a write to stderr, and `raise`. -/
inductive Stmt where
  | assign (x : String) (e : Expr)
  | printStdout (e : Expr)
  | printStderr (e : Expr)
  | raiseExc (msg : String)
deriving Repr, DecidableEq

/-- A code fragment handed to `PythonREPL.execute` (the parsed form of the
`code_string` argument). -/
abbrev Code := List Stmt

/-- The sandbox namespace: Python's `globals_dict`, restricted to the
user-visible bindings (the `__builtins__` bookkeeping keys are elided). -/
abbrev Env := List (String × Int)

def envLookup (env : Env) (x : String) : Option Int :=
  (env.find? (fun p => p.1 = x)).map (·.2)

def envSet (env : Env) (x : String) (v : Int) : Env :=
  (x, v) :: env.filter (fun p => ¬ p.1 = x)

/-- Evaluating an expression; an unbound variable raises `NameError` exactly
as Python's `exec` would. -/
def evalExpr (env : Env) : Expr → Except String Int
  | .lit n => .ok n
  | .var x =>
    match envLookup env x with
    | some v => .ok v
    | none => .error ("NameError: name \x27" ++ x ++ "\x27 is not defined")
  | .add a b => do pure ((← evalExpr env a) + (← evalExpr env b))
  | .mul a b => do pure ((← evalExpr env a) * (← evalExpr env b))

/-- In-flight execution state: the mutated namespace plus the two capture
buffers (`io.StringIO` redirect targets). -/
structure ExecState where
  env : Env
  stdout : String
  stderr : String
deriving Repr, DecidableEq

/-- One statement under `exec`: assignments mutate the namespace in place,
prints append to the captured streams, `raise` aborts with a message. -/
def runStmt (s : ExecState) : Stmt → ExecState × Option String
  | .assign x e =>
    match evalExpr s.env e with
    | .ok v => ({ s with env := envSet s.env x v }, none)
    | .error m => (s, some m)
  | .printStdout e =>
    match evalExpr s.env e with
    | .ok v => ({ s with stdout := s.stdout ++ toString v ++ "\n" }, none)
    | .error m => (s, some m)
  | .printStderr e =>
    match evalExpr s.env e with
    | .ok v => ({ s with stderr := s.stderr ++ toString v ++ "\n" }, none)
    | .error m => (s, some m)
  | .raiseExc msg => (s, some ("Exception: " ++ msg))

/-- Running a fragment statement by statement; execution stops at the first
unhandled failure but keeps the namespace mutations and captured output made
before that point (Python `exec` mutates `globals_dict` in place). -/
def execCode : Code → ExecState → ExecState × Option String
  | [], s => (s, none)
  | stmt :: rest, s =>
    match runStmt s stmt with
    | (s1, none) => execCode rest s1
    | (s1, some m) => (s1, some m)

/-- The persistent REPL object (main.py lines 29-38). -/
structure PythonREPL where
  globals_dict : Env
deriving Repr, DecidableEq

/-- A fresh REPL: `__init__` seeds only bookkeeping keys, so the user-visible
namespace starts empty. -/
def PythonREPL.init : PythonREPL := { globals_dict := [] }

/-- The result dict of `PythonREPL.execute`. -/
structure ExecResult where
  stdout : String
  stderr : String
  error : Option String
deriving Repr, DecidableEq

/-- Models `traceback.format_exc()`: the full diagnostic trace, not just the bare
message. -/
def formatExc (msg : String) : String :=
  "Traceback (most recent call last):\n" ++
    ("  File \"<string>\", line 1, in <module>\n" ++ (msg ++ "\n"))

/-- Embeds `PythonREPL.execute` (main.py lines 40-69).  Mirrors the source exactly:
on success both captures are copied out; in the `except` branch only `error`
and `stderr` are assigned, so the returned `stdout` stays at its initial `""`
even when output was captured before the failure. -/
def PythonREPL.execute (r : PythonREPL) (code : Code) : PythonREPL × ExecResult :=
  match execCode code { env := r.globals_dict, stdout := "", stderr := "" } with
  | (s, none) =>
    ({ globals_dict := s.env }, { stdout := s.stdout, stderr := s.stderr, error := none })
  | (s, some m) =>
    ({ globals_dict := s.env }, { stdout := "", stderr := s.stderr, error := some (formatExc m) })

/-! ## The Output Governor (`ClaudeChat._truncate_output`, main.py lines 136-146) -/

/-- Python `str.rstrip()`: drop trailing whitespace. -/
def rstrip (s : String) : String :=
  ⟨(s.data.reverse.dropWhile Char.isWhitespace).reverse⟩

/-- Python slicing `text[:limit]`. -/
def strTake (s : String) (n : Nat) : String := ⟨s.data.take n⟩

/-- The truncation note f-string built in `_truncate_output`. -/
def truncation_msg (output_type : String) (limit : Nat) : String :=
  "\n[... " ++ (output_type ++ (" truncated to " ++ (toString limit ++ " characters]")))

/-- Embeds `ClaudeChat._truncate_output` with the instance attribute
`output_char_limit` passed explicitly.  `text` is `Optional` because the
`error` channel can be `None`; `text.rstrip() if text else ""` maps `None`
and `""` to `""`. -/
def truncate_output (text : Option String) (limit : Nat) (output_type : String) :
    String × Bool × String :=
  let t := match text with
    | none => ""
    | some s => if s = "" then "" else rstrip s
  if t.length > limit then
    (strTake t limit, true, truncation_msg output_type limit)
  else
    (t, false, "")

example : truncate_output (some "abc  \n") 10 "stdout" = ("abc", false, "") := by decide
example : truncate_output (some "abcdef") 4 "stdout" =
    ("abcd", true, truncation_msg "stdout" 4) := by decide
example : truncate_output none 4 "error" = ("", false, "") := by decide

/-! ## The Conversation Ledger (`ClaudeChat` message bookkeeping, main.py lines 71-130) -/

/-- A finalized reasoning block: deliberation text plus its attestation
signature. -/
structure ThinkingBlock where
  thinking : String
  signature : String
deriving Repr, DecidableEq

/-- The structured argument payload of a tool invocation: the parsed JSON
object, whose `code_string` value is carried as an embedded `Code`
fragment. -/
abbrev ToolInput := List (String × Code)

def lookupKey (m : ToolInput) (k : String) : Option Code :=
  (m.find? (fun p => p.1 = k)).map (·.2)

/-- One entry of `tool_use_blocks`: the dict
`{"id": ..., "name": ..., "input": ...}`. -/
structure ToolUseBlock where
  id : String
  name : String
  input : ToolInput
deriving Repr, DecidableEq

/-- The payload of a `tool_result` block: `Union[str, List]`, where the list
case only ever carries `{"type": "text", "text": ...}` blocks in this
program (main.py line 478). -/
inductive ToolResultContent where
  | str (s : String)
  | textBlocks (texts : List String)
deriving Repr, DecidableEq

/-- One typed unit inside a message's content list. -/
inductive ContentBlock where
  | text (s : String)
  | thinking (tb : ThinkingBlock)
  | tool_use (id : String) (name : String) (input : ToolInput)
  | tool_result (tool_use_id : String) (content : ToolResultContent)
      (is_error : Bool)
deriving Repr, DecidableEq

/-- A message's `content` field is either a raw string (as appended by
`add_user_message`) or a list of content blocks. -/
inductive MsgContent where
  | str (s : String)
  | blocks (l : List ContentBlock)
deriving Repr, DecidableEq

/-- One ledger entry. -/
structure Message where
  role : String
  content : MsgContent
deriving Repr, DecidableEq

/-- The `ClaudeChat` instance state (main.py lines 72-79). -/
structure ChatState where
  python_repl : PythonREPL
  messages : List Message
  last_assistant_message : Option Message
  last_thinking_block : Option ThinkingBlock
  output_char_limit : Nat
deriving Repr, DecidableEq

/-- Embeds `ClaudeChat.__init__`. -/
def ClaudeChat.init : ChatState :=
  { python_repl := PythonREPL.init
    messages := []
    last_assistant_message := none
    last_thinking_block := none
    output_char_limit := 4000 }

/-- Embeds `ClaudeChat.add_user_message` (lines 81-86): the content is appended as a
raw string. -/
def add_user_message (st : ChatState) (content : String) : ChatState :=
  { st with messages := st.messages ++ [{ role := "user", content := .str content }] }

/-- The `content` argument of `add_assistant_message` is
`Union[str, List[ContentBlock]]`. -/
inductive ContentArg where
  | str (s : String)
  | blocks (l : List ContentBlock)
deriving Repr, DecidableEq

/-- The content-block list a `ContentArg` denotes once string content has
been wrapped into a text block (lines 105-107). -/
def contentBlocksOf : ContentArg → List ContentBlock
  | .str s => [.text s]
  | .blocks l => l

/-- Embeds `ClaudeChat.add_assistant_message` (lines 88-114): fall back to the
carry-forward slot when no reasoning block is supplied, then put the
reasoning block first in the content list. -/
def add_assistant_message (st : ChatState) (content : ContentArg)
    (thinking_block : Option ThinkingBlock) : ChatState :=
  let thinking_block := match thinking_block with
    | none => match st.last_thinking_block with
      | some tb => some tb
      | none => none
    | some tb => some tb
  let content := match thinking_block with
    | some tb => match content with
      | .str s => ContentArg.blocks [.thinking tb, .text s]
      | .blocks l => ContentArg.blocks (.thinking tb :: l)
    | none => content
  let contentList := contentBlocksOf content
  let message : Message := { role := "assistant", content := .blocks contentList }
  { st with
    messages := st.messages ++ [message]
    last_assistant_message := some message }

/-- Embeds `ClaudeChat.add_tool_result` (lines 116-130): a fresh `user` message
carrying exactly one `tool_result` block. -/
def add_tool_result (st : ChatState) (tool_use_id : String)
    (content : ToolResultContent) (is_error : Bool) : ChatState :=
  { st with
    messages := st.messages ++
      [{ role := "user"
         content := .blocks [.tool_result tool_use_id content is_error] }] }

/-! ## Tool dispatch (`ClaudeChat.run_tool`, main.py lines 408-497) -/

def missing_code_msg : String :=
  "Error: Missing \x27code_string\x27 parameter in python_repl tool input"

def unknown_tool_msg (tool_name : String) : String :=
  "Error: Unknown tool \x27" ++ tool_name ++ "\x27"

/-- Embeds `ClaudeChat.run_tool`.  Besides the updated chat state it returns the
trace of code fragments actually submitted to `PythonREPL.execute`, so that
"the sandbox is never invoked" is an observable fact.  The guard
`not tool_input or "code_string" not in tool_input or not tool_input["code_string"]`
becomes: the key is absent (which subsumes the empty input map) or its value
is the empty fragment. -/
def run_tool (st : ChatState) (b : ToolUseBlock) : ChatState × List Code :=
  let tool_name := b.name
  let tool_input := b.input
  let tool_id := b.id
  if tool_name = "python_repl" then
    match lookupKey tool_input "code_string" with
    | none => (add_tool_result st tool_id (.str missing_code_msg) true, [])
    | some code =>
      if code = [] then
        (add_tool_result st tool_id (.str missing_code_msg) true, [])
      else
        let er := st.python_repl.execute code
        let st := { st with python_repl := er.1 }
        let result := er.2
        let so := truncate_output (some result.stdout) st.output_char_limit "stdout"
        let se := truncate_output (some result.stderr) st.output_char_limit "stderr"
        let ee := truncate_output result.error st.output_char_limit "error"
        match result.error with
        | some _ => (add_tool_result st tool_id (.str ee.1) true, [code])
        | none =>
          if so.1 ≠ "" ∨ se.1 ≠ "" then
            let result_text :=
              if so.1 ≠ "" then
                "[stdout]:\n" ++ so.1 ++ (if so.2.1 then so.2.2 else "")
              else ""
            let result_text :=
              if se.1 ≠ "" then
                result_text ++ (if result_text ≠ "" then "\n" else "") ++
                  ("[stderr]:\n" ++ se.1 ++ (if se.2.1 then se.2.2 else ""))
              else result_text
            (add_tool_result st tool_id (.textBlocks [result_text]) false, [code])
          else
            (add_tool_result st tool_id (.str "No output produced.") false, [code])
  else
    (add_tool_result st tool_id (.str (unknown_tool_msg tool_name)) true, [])

/-! ## Properties of the Output Governor and the Sandbox -/

lemma truncation_msg_ne_empty (output_type : String) (limit : Nat) :
    truncation_msg output_type limit ≠ "" := by
  intro h
  have h2 := congrArg String.length h
  simp only [truncation_msg, String.length_append] at h2
  have h6 : ("\n[... " : String).length = 6 := by decide
  have h0 : ("" : String).length = 0 := by decide
  omega

lemma rstrip_empty : rstrip "" = "" := by decide

lemma truncate_output_some_eq (text : String) (limit : Nat) (output_type : String) :
    truncate_output (some text) limit output_type =
      if (rstrip text).length > limit then
        (strTake (rstrip text) limit, true, truncation_msg output_type limit)
      else
        (rstrip text, false, "") := by
  have h0 : (if text = "" then "" else rstrip text) = rstrip text := by
    split
    · rename_i h; rw [h, rstrip_empty]
    · rfl
  simp only [truncate_output, h0]

lemma strTake_length (s : String) (n : Nat) : (strTake s n).length = min n s.length := by
  show (s.data.take n).length = min n s.data.length
  exact List.length_take n s.data

/-- Claim C2 (counterexample): for the input `"a "` with limit 4 the trimmed
text is under the limit, yet `_truncate_output` returns the trimmed text
`"a"`, not the input text unchanged. -/
theorem truncate_output_trims_counterexample :
    truncate_output (some "a ") 4 "stdout" = ("a", false, "") ∧
    (truncate_output (some "a ") 4 "stdout").1 ≠ "a " := by decide

/-- Claim C2 (amended): `_truncate_output` first trims trailing whitespace;
if the trimmed text is longer than the limit the visible text has length
exactly the limit, the truncated flag is true and the note is non-empty;
if the trimmed text is at or under the limit the trimmed text (not
necessarily the original input) is returned with a false flag and an empty
note. -/
theorem truncate_output_spec (text : String) (limit : Nat) (output_type : String) :
    ((rstrip text).length > limit →
      (truncate_output (some text) limit output_type).1.length = limit ∧
      (truncate_output (some text) limit output_type).2.1 = true ∧
      (truncate_output (some text) limit output_type).2.2 ≠ "") ∧
    ((rstrip text).length ≤ limit →
      truncate_output (some text) limit output_type = (rstrip text, false, "")) := by
  rw [truncate_output_some_eq]
  constructor
  · intro hgt
    rw [if_pos hgt]
    refine ⟨?_, rfl, truncation_msg_ne_empty _ _⟩
    rw [strTake_length]
    omega
  · intro hle
    rw [if_neg (by omega)]

/-- Witness for `truncate_output_spec`: both hypotheses discharged on
concrete inputs. -/
theorem truncate_output_spec_witness :
    (truncate_output (some "abcdef ") 3 "stdout").1.length = 3 ∧
    truncate_output (some "ab ") 3 "stdout" = ("ab", false, "") :=
  ⟨((truncate_output_spec "abcdef " 3 "stdout").1 (by decide)).1,
   (truncate_output_spec "ab " 3 "stdout").2 (by decide)⟩

/-- The REPL object returned by `execute` carries exactly the namespace the
fragment's execution produced (on success and on failure alike). -/
lemma execute_globals (r : PythonREPL) (code : Code) :
    (r.execute code).1.globals_dict =
      (execCode code { env := r.globals_dict, stdout := "", stderr := "" }).1.env := by
  unfold PythonREPL.execute
  rcases hA : execCode code { env := r.globals_dict, stdout := "", stderr := "" } with ⟨s, err⟩
  cases err <;> rfl

/-- Executing a fragment that prints a bound name succeeds and prints its
value. -/
lemma execute_print_var (r : PythonREPL) (n : String) (v : Int)
    (h : envLookup r.globals_dict n = some v) :
    (r.execute [.printStdout (.var n)]).2 =
      { stdout := toString v ++ "\n", stderr := "", error := none } := by
  simp [PythonREPL.execute, execCode, runStmt, evalExpr, h, String.empty_append]

/-- Claim C3: a top-level name bound by fragment `A` is visible and usable
inside any later fragment `B` of the same session: the namespace handed to
the next `execute` call is exactly the one `A`'s execution produced (never
reset), the bound name evaluates to its value there, and a subsequent call
that reads the name succeeds and prints it. -/
theorem sandbox_namespace_persists (r : PythonREPL) (A : Code) (n : String) (v : Int)
    (h : envLookup ((r.execute A).1.globals_dict) n = some v) :
    (r.execute A).1.globals_dict =
      (execCode A { env := r.globals_dict, stdout := "", stderr := "" }).1.env ∧
    evalExpr ((r.execute A).1.globals_dict) (.var n) = .ok v ∧
    ((r.execute A).1.execute [.printStdout (.var n)]).2 =
      { stdout := toString v ++ "\n", stderr := "", error := none } := by
  refine ⟨execute_globals r A, ?_, execute_print_var _ n v h⟩
  simp [evalExpr, h]

/-- Witness for `sandbox_namespace_persists`: bind `x = 10` in `A`, then
print it in `B`. -/
theorem sandbox_namespace_persists_witness :
    envLookup ((PythonREPL.init.execute [.assign "x" (.lit 10)]).1.globals_dict) "x" =
      some 10 ∧
    ((PythonREPL.init.execute [.assign "x" (.lit 10)]).1.execute
        [.printStdout (.var "x")]).2 =
      { stdout := toString (10 : Int) ++ "\n", stderr := "", error := none } :=
  ⟨by decide,
   (sandbox_namespace_persists PythonREPL.init [.assign "x" (.lit 10)] "x" 10
      (by decide)).2.2⟩

/-- Claim C4 (counterexample): a fragment that prints `1` to stdout and then
raises produced `"1\n"` on stdout before the failure point, but the result
dict of `execute` carries an empty `stdout`: the `except` branch copies only
`stderr` out of the capture buffers. -/
theorem execute_drops_stdout_on_error :
    (PythonREPL.init.execute [.printStdout (.lit 1), .raiseExc "boom"]).2.error ≠ none ∧
    (execCode [.printStdout (.lit 1), .raiseExc "boom"]
        { env := [], stdout := "", stderr := "" }).1.stdout = "1\n" ∧
    (PythonREPL.init.execute [.printStdout (.lit 1), .raiseExc "boom"]).2.stdout = "" := by
  refine ⟨by decide, by decide, by decide⟩

/-- Claim C4 (amended): on an unhandled failure `error` holds the full
formatted traceback (header plus message, not the bare message) and `stderr`
still holds the output written to it before the failure point, but `stdout`
is returned empty; a fragment that completes without an unhandled exception
returns both captures and `error = none`. -/
theorem execute_error_contract (r : PythonREPL) (code : Code) :
    (∀ s m, execCode code { env := r.globals_dict, stdout := "", stderr := "" } = (s, some m) →
      (r.execute code).2.error = some (formatExc m) ∧
      (∃ rest, formatExc m = "Traceback (most recent call last):\n" ++ rest) ∧
      (r.execute code).2.stderr = s.stderr ∧
      (r.execute code).2.stdout = "") ∧
    (∀ s, execCode code { env := r.globals_dict, stdout := "", stderr := "" } = (s, none) →
      (r.execute code).2 = { stdout := s.stdout, stderr := s.stderr, error := none }) := by
  constructor
  · intro s m hrun
    unfold PythonREPL.execute
    rw [hrun]
    exact ⟨rfl, ⟨_, rfl⟩, rfl, rfl⟩
  · intro s hrun
    unfold PythonREPL.execute
    rw [hrun]

/-- Witness for `execute_error_contract`: one failing and one succeeding
concrete fragment. -/
theorem execute_error_contract_witness :
    (PythonREPL.init.execute [.printStderr (.lit 2), .raiseExc "boom"]).2.error =
      some (formatExc "Exception: boom") ∧
    (PythonREPL.init.execute [.printStderr (.lit 2), .raiseExc "boom"]).2.stderr =
      toString (2 : Int) ++ "\n" ∧
    (PythonREPL.init.execute [.assign "x" (.lit 1)]).2 =
      { stdout := "", stderr := "", error := none } := by
  have h1 := (execute_error_contract PythonREPL.init
      [.printStderr (.lit 2), .raiseExc "boom"]).1
      { env := [], stdout := "", stderr := toString (2 : Int) ++ "\n" } "Exception: boom"
      (by decide)
  have h2 := (execute_error_contract PythonREPL.init [.assign "x" (.lit 1)]).2
      { env := envSet [] "x" 1, stdout := "", stderr := "" } (by decide)
  exact ⟨h1.1, h1.2.2.1, h2⟩

/-! ## The Stream Reconstructor (`ClaudeChat.call_claude`, main.py lines 168-406) -/

/-- A stopped content block as delivered by a `content_block_stop` event.
The optional fields model Python's `hasattr` probes. -/
inductive StoppedBlock where
  | tool_use (input : ToolInput)
  | thinking (thinkingText : Option String) (sig : Option String)
  | other
deriving Repr, DecidableEq

/-- One block of the canonical final message carried by `message_stop`. -/
inductive FinalBlock where
  | text (s : String)
  | thinking (thinkingText : Option String) (sig : Option String)
  | tool_use (id : String) (name : String) (input : ToolInput)
  | other
deriving Repr, DecidableEq

/-- The incremental stream events `call_claude` distinguishes (the duck-typed
`event.type` branches of lines 259-321, decided once at the boundary). -/
inductive StreamEvent where
  | thinking (s : String)
  | signature (s : String)
  | text (s : String)
  | inputJson (pjson : String)
  | content_block_start_tool (id : String) (name : String)
  | content_block_start_other
  | content_block_stop (block : StoppedBlock)
  | message_stop (content : List FinalBlock)
deriving Repr, DecidableEq

/-- The local accumulators of `call_claude` (lines 170-173 and 249-251). -/
structure StreamAcc where
  thinking_content : String
  text_content : String
  tool_use_blocks : List ToolUseBlock
  thinking_signature : String
  current_tool_block : Option ToolUseBlock
  thinking_block : Option ThinkingBlock
deriving Repr, DecidableEq

def StreamAcc.init : StreamAcc :=
  { thinking_content := ""
    text_content := ""
    tool_use_blocks := []
    thinking_signature := ""
    current_tool_block := none
    thinking_block := none }

/-- Models `if not any(block["id"] == current_tool_block["id"] for block in
tool_use_blocks): tool_use_blocks.append(...)` (lines 298-299 and 355-356). -/
def addBlockIfNew (blocks : List ToolUseBlock) (b : ToolUseBlock) : List ToolUseBlock :=
  if blocks.any (fun bl => bl.id == b.id) then blocks else blocks ++ [b]

/-- Sealing the in-progress reasoning block once both its text and signature
are present: build the block and store it into the carry-forward slot
(lines 310-318 and 337-344). -/
def sealThinking (st : ChatState) (acc : StreamAcc) : ChatState × StreamAcc :=
  if acc.thinking_content ≠ "" ∧ acc.thinking_signature ≠ "" then
    let tb : ThinkingBlock :=
      { thinking := acc.thinking_content, signature := acc.thinking_signature }
    ({ st with last_thinking_block := some tb }, { acc with thinking_block := some tb })
  else
    (st, acc)

/-- The first loop of the `message_stop` handler (lines 328-345): find the
first reasoning block of the canonical content and stop there. -/
def findFirstThinking : List FinalBlock → Option (Option String × Option String)
  | [] => none
  | .thinking t s :: _ => some (t, s)
  | _ :: rest => findFirstThinking rest

/-- The second loop of the `message_stop` handler (lines 348-366): walk the
canonical content and append each not-yet-seen `tool_use` block. -/
def msgStopBlocks (blocks : List ToolUseBlock) : List FinalBlock → List ToolUseBlock
  | [] => blocks
  | .tool_use i n inp :: rest =>
    msgStopBlocks (addBlockIfNew blocks { id := i, name := n, input := inp }) rest
  | _ :: rest => msgStopBlocks blocks rest

/-- One iteration of the event loop of `call_claude` (lines 253-366), acting
on the chat state (for the carry-forward slot) and the local accumulators. -/
def processEvent (p : ChatState × StreamAcc) (e : StreamEvent) : ChatState × StreamAcc :=
  let st := p.1
  let acc := p.2
  match e with
  | .thinking s => (st, { acc with thinking_content := acc.thinking_content ++ s })
  | .signature s => (st, { acc with thinking_signature := s })
  | .text s => (st, { acc with text_content := acc.text_content ++ s })
  | .inputJson _ => (st, acc)
  | .content_block_start_tool i n =>
    (st, { acc with current_tool_block := some { id := i, name := n, input := [] } })
  | .content_block_start_other => (st, acc)
  | .content_block_stop block =>
    match block with
    | .tool_use inp =>
      match acc.current_tool_block with
      | some ctb =>
        let ctb := { ctb with input := inp }
        (st, { acc with
                tool_use_blocks := addBlockIfNew acc.tool_use_blocks ctb
                current_tool_block := none })
      | none => (st, acc)
    | .thinking t s =>
      let acc := { acc with
        thinking_signature :=
          if acc.thinking_signature = "" then s.getD acc.thinking_signature
          else acc.thinking_signature }
      let acc := { acc with
        thinking_content :=
          if acc.thinking_content = "" then t.getD acc.thinking_content
          else acc.thinking_content }
      sealThinking st acc
    | .other => (st, acc)
  | .message_stop content =>
    if content.isEmpty then (st, acc)
    else
      let p1 :=
        match findFirstThinking content with
        | none => (st, acc)
        | some (t, s) =>
          let acc := { acc with
            thinking_content :=
              if acc.thinking_content = "" then t.getD acc.thinking_content
              else acc.thinking_content }
          let acc := { acc with
            thinking_signature :=
              if acc.thinking_signature = "" then s.getD acc.thinking_signature
              else acc.thinking_signature }
          sealThinking st acc
      (p1.1, { p1.2 with tool_use_blocks := msgStopBlocks p1.2.tool_use_blocks content })

/-- The outcome of `call_claude`: the updated chat object, the returned
`(text, tool_use_blocks)` pair (`text = none` models the `None` returned on
failure), and whether the `except` branch printed an operator-facing error. -/
structure CallResult where
  state : ChatState
  text : Option String
  tool_use_blocks : List ToolUseBlock
  errorSurfaced : Bool
deriving Repr, DecidableEq

/-- Embeds `ClaudeChat.call_claude`.  The remote stream is abstracted as the list of
events it yields; `transportFails = true` models a transport-level exception
raised during consumption after those events (the `except` branch of lines
403-406: print the error and return `(None, [])`).  On success the epilogue
of lines 369-401 runs: seal a pending reasoning block, then append the
assistant message when there is any content. -/
def callClaude (st : ChatState) (events : List StreamEvent) (transportFails : Bool) :
    CallResult :=
  let p := events.foldl processEvent (st, StreamAcc.init)
  if transportFails then
    { state := p.1, text := none, tool_use_blocks := [], errorSurfaced := true }
  else
    let st1 := p.1
    let acc := p.2
    let p2 :=
      if acc.thinking_content ≠ "" ∧ acc.thinking_signature ≠ "" ∧
          acc.thinking_block = none then
        let tb : ThinkingBlock :=
          { thinking := acc.thinking_content, signature := acc.thinking_signature }
        ({ st1 with last_thinking_block := some tb }, { acc with thinking_block := some tb })
      else (st1, acc)
    let st2 := p2.1
    let acc := p2.2
    let st3 :=
      if acc.text_content ≠ "" ∨ ¬ acc.tool_use_blocks.isEmpty then
        let content_blocks :=
          (if acc.text_content ≠ "" then [ContentBlock.text acc.text_content] else []) ++
            acc.tool_use_blocks.map (fun b => ContentBlock.tool_use b.id b.name b.input)
        add_assistant_message st2 (.blocks content_blocks) acc.thinking_block
      else st2
    { state := st3, text := some acc.text_content, tool_use_blocks := acc.tool_use_blocks
      errorSurfaced := false }

/-! ## The turn loop (`main`, main.py lines 572-587) -/

/-- The per-turn dispatch of lines 581-587: walk the finalized
`tool_use_blocks`, keep a processed-identifier set, and call `run_tool` only
for identifiers not yet processed.  The second component is the
processed-set in insertion order, i.e. the identifiers actually dispatched. -/
def dispatchStep (acc : ChatState × List String) (b : ToolUseBlock) :
    ChatState × List String :=
  if b.id ∈ acc.2 then acc
  else ((run_tool acc.1 b).1, acc.2 ++ [b.id])

def dispatchBlocks (st : ChatState) (blocks : List ToolUseBlock) :
    ChatState × List String :=
  blocks.foldl dispatchStep (st, [])

/-! ## Stream invariants -/

lemma nodup_append_singleton {α : Type _} (l : List α) (a : α)
    (h : l.Nodup) (ha : a ∉ l) : (l ++ [a]).Nodup := by
  rw [List.nodup_append]
  refine ⟨h, List.nodup_singleton a, ?_⟩
  intro x hx hxa
  simp only [List.mem_singleton] at hxa
  subst hxa
  exact ha hx

lemma addBlockIfNew_nodup (blocks : List ToolUseBlock) (b : ToolUseBlock)
    (h : (blocks.map ToolUseBlock.id).Nodup) :
    ((addBlockIfNew blocks b).map ToolUseBlock.id).Nodup := by
  unfold addBlockIfNew
  split
  · exact h
  · rename_i hany
    rw [List.map_append]
    refine nodup_append_singleton _ _ h ?_
    intro hmem
    rcases List.mem_map.mp hmem with ⟨bl, hbl, hid⟩
    exact hany (List.any_eq_true.mpr ⟨bl, hbl, beq_iff_eq.mpr hid⟩)

lemma msgStopBlocks_nodup (content : List FinalBlock) (blocks : List ToolUseBlock)
    (h : (blocks.map ToolUseBlock.id).Nodup) :
    ((msgStopBlocks blocks content).map ToolUseBlock.id).Nodup := by
  induction content generalizing blocks with
  | nil => exact h
  | cons fb rest ih =>
    cases fb with
    | tool_use i n inp => exact ih _ (addBlockIfNew_nodup _ _ h)
    | text s => exact ih _ h
    | thinking t s => exact ih _ h
    | other => exact ih _ h

lemma sealThinking_messages (st : ChatState) (acc : StreamAcc) :
    (sealThinking st acc).1.messages = st.messages := by
  unfold sealThinking
  split <;> rfl

lemma sealThinking_ltb (st : ChatState) (acc : StreamAcc)
    (h : st.last_thinking_block.isSome) :
    ((sealThinking st acc).1.last_thinking_block).isSome := by
  unfold sealThinking
  split
  · rfl
  · exact h

lemma sealThinking_blocks (st : ChatState) (acc : StreamAcc) :
    (sealThinking st acc).2.tool_use_blocks = acc.tool_use_blocks := by
  unfold sealThinking
  split <;> rfl

lemma processEvent_nodup (p : ChatState × StreamAcc) (e : StreamEvent)
    (h : (p.2.tool_use_blocks.map ToolUseBlock.id).Nodup) :
    (((processEvent p e).2).tool_use_blocks.map ToolUseBlock.id).Nodup := by
  obtain ⟨st, acc⟩ := p
  cases e with
  | thinking s => exact h
  | signature s => exact h
  | text s => exact h
  | inputJson s => exact h
  | content_block_start_tool i n => exact h
  | content_block_start_other => exact h
  | content_block_stop block =>
    cases block with
    | tool_use inp =>
      cases hc : acc.current_tool_block with
      | none => simpa [processEvent, hc] using h
      | some ctb =>
        simp only [processEvent, hc]
        exact addBlockIfNew_nodup _ _ h
    | thinking t s =>
      simp only [processEvent]
      rw [sealThinking_blocks]
      exact h
    | other => exact h
  | message_stop content =>
    simp only [processEvent]
    split
    · exact h
    · rcases hf : findFirstThinking content with _ | ⟨t, s⟩
      · simp only [hf]
        exact msgStopBlocks_nodup _ _ h
      · simp only [hf]
        refine msgStopBlocks_nodup _ _ ?_
        rw [sealThinking_blocks]
        exact h

lemma foldl_processEvent_nodup (events : List StreamEvent) (p : ChatState × StreamAcc)
    (h : (p.2.tool_use_blocks.map ToolUseBlock.id).Nodup) :
    (((events.foldl processEvent p).2).tool_use_blocks.map ToolUseBlock.id).Nodup := by
  induction events generalizing p with
  | nil => exact h
  | cons e rest ih => exact ih _ (processEvent_nodup p e h)

lemma processEvent_messages (p : ChatState × StreamAcc) (e : StreamEvent) :
    ((processEvent p e).1).messages = p.1.messages := by
  obtain ⟨st, acc⟩ := p
  cases e with
  | thinking s => rfl
  | signature s => rfl
  | text s => rfl
  | inputJson s => rfl
  | content_block_start_tool i n => rfl
  | content_block_start_other => rfl
  | content_block_stop block =>
    cases block with
    | tool_use inp => cases hc : acc.current_tool_block <;> simp [processEvent, hc]
    | thinking t s =>
      simp only [processEvent]
      exact sealThinking_messages _ _
    | other => rfl
  | message_stop content =>
    simp only [processEvent]
    split
    · rfl
    · rcases hf : findFirstThinking content with _ | ⟨t, s⟩
      · simp only [hf]
      · simp only [hf]
        exact sealThinking_messages _ _

lemma foldl_processEvent_messages (events : List StreamEvent) (p : ChatState × StreamAcc) :
    ((events.foldl processEvent p).1).messages = p.1.messages := by
  induction events generalizing p with
  | nil => rfl
  | cons e rest ih =>
    rw [List.foldl_cons, ih, processEvent_messages]

lemma callClaude_blocks (st : ChatState) (events : List StreamEvent) :
    (callClaude st events false).tool_use_blocks =
      ((events.foldl processEvent (st, StreamAcc.init)).2).tool_use_blocks := by
  unfold callClaude
  dsimp only
  split
  · rename_i h
    simp at h
  · split <;> rfl

/-- Claim C5: a transport-level exception during stream consumption leaves
the ledger exactly as it was, surfaces an operator-facing message, and yields
the empty outcome `(None, [])`. -/
theorem transport_failure_leaves_ledger (st : ChatState) (events : List StreamEvent) :
    (callClaude st events true).state.messages = st.messages ∧
    (callClaude st events true).text = none ∧
    (callClaude st events true).tool_use_blocks = [] ∧
    (callClaude st events true).errorSurfaced = true := by
  refine ⟨?_, rfl, rfl, rfl⟩
  exact foldl_processEvent_messages events (st, StreamAcc.init)

/-- Claim C1: the finalized tool-invocation list of `call_claude` never
repeats an identifier, and the per-turn dispatch loop of `main` processes
each identifier at most once (its processed-set, returned in insertion
order, is duplicate-free) whatever duplicates the block list contains. -/
theorem tool_dispatch_at_most_once :
    (∀ (st : ChatState) (events : List StreamEvent) (transportFails : Bool),
      (((callClaude st events transportFails).tool_use_blocks).map ToolUseBlock.id).Nodup) ∧
    (∀ (st : ChatState) (blocks : List ToolUseBlock),
      ((dispatchBlocks st blocks).2).Nodup) := by
  constructor
  · intro st events transportFails
    cases transportFails
    · rw [callClaude_blocks]
      exact foldl_processEvent_nodup events (st, StreamAcc.init) List.nodup_nil
    · exact List.nodup_nil
  · intro st blocks
    have key : ∀ (bs : List ToolUseBlock) (q : ChatState × List String),
        q.2.Nodup → ((bs.foldl dispatchStep q).2).Nodup := by
      intro bs
      induction bs with
      | nil => intro q h; exact h
      | cons b rest ih =>
        intro q h
        refine ih _ ?_
        unfold dispatchStep
        split
        · exact h
        · rename_i hmem
          exact nodup_append_singleton _ _ h hmem
    exact key blocks (st, []) List.nodup_nil

/-! ## Tool dispatch and carry-forward properties -/

/-- Claim C6: a `python_repl` invocation whose argument map lacks a usable
`code_string` (key absent — which subsumes the empty map — or an empty
fragment) yields an error tool-result message, submits nothing to the
sandbox, and leaves the REPL untouched. -/
theorem missing_code_is_error_not_crash (st : ChatState) (b : ToolUseBlock)
    (hname : b.name = "python_repl")
    (hmissing : lookupKey b.input "code_string" = none ∨
      lookupKey b.input "code_string" = some []) :
    (run_tool st b).2 = [] ∧
    (run_tool st b).1.messages = st.messages ++
      [{ role := "user"
         content := .blocks [.tool_result b.id (.str missing_code_msg) true] }] ∧
    (run_tool st b).1.python_repl = st.python_repl := by
  rcases hmissing with h | h <;>
    simp [run_tool, hname, h, add_tool_result]

/-- Witness for `missing_code_is_error_not_crash`: an invocation with an
empty arguments map. -/
theorem missing_code_is_error_not_crash_witness :
    (run_tool ClaudeChat.init { id := "t1", name := "python_repl", input := [] }).2 = [] ∧
    (run_tool ClaudeChat.init
        { id := "t1", name := "python_repl", input := [] }).1.messages =
      [{ role := "user"
         content := .blocks [.tool_result "t1" (.str missing_code_msg) true] }] := by
  have h := missing_code_is_error_not_crash ClaudeChat.init
      { id := "t1", name := "python_repl", input := [] } rfl (Or.inl rfl)
  exact ⟨h.1, by simpa using h.2.1⟩

/-- Claim C7: an invocation of an unknown capability executes nothing,
appends an error tool-result naming the capability, leaves the REPL
untouched, and the per-turn dispatch loop simply continues with the
remaining blocks. -/
theorem unknown_tool_is_error (st : ChatState) (b : ToolUseBlock)
    (hname : b.name ≠ "python_repl") :
    (run_tool st b).2 = [] ∧
    (run_tool st b).1.messages = st.messages ++
      [{ role := "user"
         content := .blocks [.tool_result b.id (.str (unknown_tool_msg b.name)) true] }] ∧
    (run_tool st b).1.python_repl = st.python_repl ∧
    (∀ rest, dispatchBlocks st (b :: rest) =
      rest.foldl dispatchStep ((run_tool st b).1, [b.id])) := by
  have hr : run_tool st b =
      (add_tool_result st b.id (.str (unknown_tool_msg b.name)) true, []) := by
    simp [run_tool, hname]
  refine ⟨by rw [hr], by rw [hr]; rfl, by rw [hr]; rfl, ?_⟩
  intro rest
  simp [dispatchBlocks, dispatchStep]

/-- Witness for `unknown_tool_is_error`: the spec's `delete_everything`
scenario. -/
theorem unknown_tool_is_error_witness :
    (run_tool ClaudeChat.init
        { id := "t2", name := "delete_everything", input := [] }).2 = [] ∧
    (run_tool ClaudeChat.init
        { id := "t2", name := "delete_everything", input := [] }).1.messages =
      [{ role := "user"
         content := .blocks
           [.tool_result "t2" (.str (unknown_tool_msg "delete_everything")) true] }] := by
  have h := unknown_tool_is_error ClaudeChat.init
      { id := "t2", name := "delete_everything", input := [] } (by decide)
  exact ⟨h.1, by simpa using h.2.1⟩

lemma add_assistant_none_carry (st : ChatState) (c : ContentArg) (tb : ThinkingBlock)
    (h : st.last_thinking_block = some tb) :
    (add_assistant_message st c none).messages = st.messages ++
      [{ role := "assistant", content := .blocks (.thinking tb :: contentBlocksOf c) }] := by
  cases c <;> simp [add_assistant_message, h, contentBlocksOf]

lemma add_assistant_own_block (st : ChatState) (c : ContentArg) (tb : ThinkingBlock) :
    (add_assistant_message st c (some tb)).messages = st.messages ++
      [{ role := "assistant", content := .blocks (.thinking tb :: contentBlocksOf c) }] := by
  cases c <;> simp [add_assistant_message, contentBlocksOf]

/-- Claim C8: when no reasoning block is supplied and the carry-forward slot
is filled, `add_assistant_message` inserts the carried block as the first
content block; when the message comes with its own reasoning block, that
block is used and the carried one is not inserted. -/
theorem carry_forward_insertion (st : ChatState) (c : ContentArg) :
    (∀ tb, st.last_thinking_block = some tb →
      (add_assistant_message st c none).messages = st.messages ++
        [{ role := "assistant"
           content := .blocks (.thinking tb :: contentBlocksOf c) }]) ∧
    (∀ tb, (add_assistant_message st c (some tb)).messages = st.messages ++
        [{ role := "assistant"
           content := .blocks (.thinking tb :: contentBlocksOf c) }]) :=
  ⟨fun tb h => add_assistant_none_carry st c tb h,
   fun tb => add_assistant_own_block st c tb⟩

/-- Witness for `carry_forward_insertion`. -/
theorem carry_forward_insertion_witness :
    (add_assistant_message
        { ClaudeChat.init with last_thinking_block := some ⟨"t", "s"⟩ }
        (.str "hi") none).messages =
      [{ role := "assistant"
         content := .blocks [.thinking ⟨"t", "s"⟩, .text "hi"] }] ∧
    (add_assistant_message ClaudeChat.init (.str "hi") (some ⟨"u", "v"⟩)).messages =
      [{ role := "assistant"
         content := .blocks [.thinking ⟨"u", "v"⟩, .text "hi"] }] := by
  have h1 := (carry_forward_insertion
      { ClaudeChat.init with last_thinking_block := some ⟨"t", "s"⟩ } (.str "hi")).1
      ⟨"t", "s"⟩ rfl
  have h2 := (carry_forward_insertion ClaudeChat.init (.str "hi")).2 ⟨"u", "v"⟩
  exact ⟨by simpa using h1, by simpa using h2⟩

lemma truncate_output_rstrip_empty (s : String) (limit : Nat) (ot : String)
    (h : rstrip s = "") : truncate_output (some s) limit ot = ("", false, "") := by
  rw [truncate_output_some_eq, h]
  have hlen : ¬ (("" : String).length > limit) := by
    have h0 : ("" : String).length = 0 := rfl
    omega
  rw [if_neg hlen]

/-- Claim C9: a successful execution whose trimmed stdout and stderr are both
empty produces a tool-result message whose content is exactly the string
`"No output produced."` with the error flag false. -/
theorem no_output_placeholder (st : ChatState) (b : ToolUseBlock) (code : Code)
    (hname : b.name = "python_repl")
    (hcode : lookupKey b.input "code_string" = some code)
    (hne : ¬ code = [])
    (herr : (st.python_repl.execute code).2.error = none)
    (hso : rstrip (st.python_repl.execute code).2.stdout = "")
    (hse : rstrip (st.python_repl.execute code).2.stderr = "") :
    (run_tool st b).2 = [code] ∧
    (run_tool st b).1.messages = st.messages ++
      [{ role := "user"
         content := .blocks [.tool_result b.id (.str "No output produced.") false] }] := by
  have hso2 := truncate_output_rstrip_empty _ st.output_char_limit "stdout" hso
  have hse2 := truncate_output_rstrip_empty _ st.output_char_limit "stderr" hse
  simp [run_tool, hname, hcode, hne, herr, hso2, hse2, add_tool_result]

/-- Witness for `no_output_placeholder`: a fragment that only binds a
variable produces no output. -/
theorem no_output_placeholder_witness :
    (run_tool ClaudeChat.init
        { id := "t3", name := "python_repl",
          input := [("code_string", [Stmt.assign "x" (.lit 5)])] }).1.messages =
      [{ role := "user"
         content := .blocks [.tool_result "t3" (.str "No output produced.") false] }] := by
  have h := no_output_placeholder ClaudeChat.init
      { id := "t3", name := "python_repl",
        input := [("code_string", [Stmt.assign "x" (.lit 5)])] }
      [Stmt.assign "x" (.lit 5)] rfl (by decide) (by decide) (by decide) (by decide)
      (by decide)
  exact by simpa using h.2

/-! ## The carry-forward slot is never cleared (session-level invariant) -/

/-- One state-mutating operation of a chat session, covering every method of
`ClaudeChat` that touches the instance state plus the turn loop's dispatch. -/
inductive SessionOp where
  | userMsg (s : String)
  | assistantMsg (c : ContentArg) (tb : Option ThinkingBlock)
  | toolResult (id : String) (c : ToolResultContent) (e : Bool)
  | toolRun (b : ToolUseBlock)
  | modelCall (events : List StreamEvent) (fails : Bool)
deriving Repr, DecidableEq

def stepOp (st : ChatState) : SessionOp → ChatState
  | .userMsg s => add_user_message st s
  | .assistantMsg c tb => add_assistant_message st c tb
  | .toolResult i c e => add_tool_result st i c e
  | .toolRun b => (run_tool st b).1
  | .modelCall ev f => (callClaude st ev f).state

lemma run_tool_ltb (st : ChatState) (b : ToolUseBlock) :
    (run_tool st b).1.last_thinking_block = st.last_thinking_block := by
  unfold run_tool
  dsimp only
  repeat' split
  all_goals rfl

lemma processEvent_ltb (p : ChatState × StreamAcc) (e : StreamEvent)
    (h : p.1.last_thinking_block.isSome = true) :
    ((processEvent p e).1.last_thinking_block).isSome = true := by
  obtain ⟨st, acc⟩ := p
  cases e with
  | thinking s => exact h
  | signature s => exact h
  | text s => exact h
  | inputJson s => exact h
  | content_block_start_tool i n => exact h
  | content_block_start_other => exact h
  | content_block_stop block =>
    cases block with
    | tool_use inp =>
      cases hc : acc.current_tool_block with
      | none => simpa [processEvent, hc] using h
      | some ctb => simpa [processEvent, hc] using h
    | thinking t s => exact sealThinking_ltb _ _ h
    | other => exact h
  | message_stop content =>
    simp only [processEvent]
    split
    · exact h
    · rcases hf : findFirstThinking content with _ | ⟨t, s⟩
      · simp only [hf]
        exact h
      · simp only [hf]
        exact sealThinking_ltb _ _ h

lemma foldl_processEvent_ltb (events : List StreamEvent) (p : ChatState × StreamAcc)
    (h : p.1.last_thinking_block.isSome = true) :
    (((events.foldl processEvent p).1).last_thinking_block).isSome = true := by
  induction events generalizing p with
  | nil => exact h
  | cons e rest ih => exact ih _ (processEvent_ltb p e h)

lemma add_assistant_ltb (st : ChatState) (c : ContentArg) (tb : Option ThinkingBlock) :
    (add_assistant_message st c tb).last_thinking_block = st.last_thinking_block := rfl

lemma callClaude_ltb (st : ChatState) (events : List StreamEvent) (f : Bool)
    (h : st.last_thinking_block.isSome = true) :
    ((callClaude st events f).state.last_thinking_block).isSome = true := by
  have h1 := foldl_processEvent_ltb events (st, StreamAcc.init) h
  unfold callClaude
  dsimp only
  split
  · exact h1
  · split
    · split
      · rw [add_assistant_ltb]
        rfl
      · rfl
    · split
      · rw [add_assistant_ltb]
        exact h1
      · exact h1

lemma stepOp_ltb (st : ChatState) (op : SessionOp)
    (h : st.last_thinking_block.isSome = true) :
    ((stepOp st op).last_thinking_block).isSome = true := by
  cases op with
  | userMsg s => exact h
  | assistantMsg c tb =>
    show ((add_assistant_message st c tb).last_thinking_block).isSome = true
    rw [add_assistant_ltb]
    exact h
  | toolResult i c e => exact h
  | toolRun b =>
    show ((run_tool st b).1.last_thinking_block).isSome = true
    rw [run_tool_ltb]
    exact h
  | modelCall ev f => exact callClaude_ltb st ev f h

/-- Claim C10: the carry-forward slot, once filled, stays filled across every
later session operation (it is overwritten but never cleared), and while it
is filled every assistant message built without its own reasoning block
receives the stored block — even in arbitrarily later turns. -/
theorem carry_forward_never_cleared :
    (∀ (st : ChatState) (ops : List SessionOp),
      st.last_thinking_block.isSome = true →
        ((ops.foldl stepOp st).last_thinking_block).isSome = true) ∧
    (∀ (st : ChatState) (tb : ThinkingBlock) (c : ContentArg),
      st.last_thinking_block = some tb →
        (add_assistant_message st c none).messages = st.messages ++
          [{ role := "assistant"
             content := .blocks (.thinking tb :: contentBlocksOf c) }]) := by
  constructor
  · intro st ops
    induction ops generalizing st with
    | nil => exact fun h => h
    | cons op rest ih => exact fun h => ih _ (stepOp_ltb st op h)
  · intro st tb c h
    exact add_assistant_none_carry st c tb h

/-- Witness for `carry_forward_never_cleared`: a slot filled before a user
turn, a tool dispatch and a model call is still filled afterwards, and still
feeds the next assistant message. -/
theorem carry_forward_never_cleared_witness :
    (([SessionOp.userMsg "hi",
       SessionOp.toolRun { id := "a", name := "delete_everything", input := [] },
       SessionOp.modelCall [] false].foldl stepOp
        { ClaudeChat.init with
          last_thinking_block := some ⟨"t", "s"⟩ }).last_thinking_block).isSome = true ∧
    (add_assistant_message
        { ClaudeChat.init with last_thinking_block := some ⟨"t", "s"⟩ }
        (.str "hello") none).messages =
      [{ role := "assistant"
         content := .blocks [.thinking ⟨"t", "s"⟩, .text "hello"] }] := by
  have h1 := carry_forward_never_cleared.1
      { ClaudeChat.init with last_thinking_block := some ⟨"t", "s"⟩ }
      [SessionOp.userMsg "hi",
       SessionOp.toolRun { id := "a", name := "delete_everything", input := [] },
       SessionOp.modelCall [] false] rfl
  have h2 := carry_forward_never_cleared.2
      { ClaudeChat.init with last_thinking_block := some ⟨"t", "s"⟩ }
      ⟨"t", "s"⟩ (.str "hello") rfl
  exact ⟨h1, by simpa using h2⟩
